import Mathlib

/-!
Shallow embedding of the NCAA dashboard repository (rankings.py, stats.py,
fieldgoalpercentage.py): HTML-table extraction into pandas-like data frames,
numeric coercion, left-join merge, and the dashboard update callbacks.
-/

deriving instance DecidableEq for Except

namespace NCAA

/-- Python `str.strip()`: leading and trailing whitespace removed. -/
def pyStrip (s : String) : String :=
  ⟨((s.data.dropWhile Char.isWhitespace).reverse.dropWhile Char.isWhitespace).reverse⟩

/-- A cell value in a data frame: a string, a (rational) number standing for a
pandas numeric value, or the null marker (None/NaN). -/
inductive Value where
  | str (s : String)
  | num (q : Rat)
  | null
  deriving DecidableEq, Repr

/-- A pandas DataFrame: ordered column names plus rows of values. -/
structure DF where
  columns : List String
  rows : List (List Value)
  deriving DecidableEq, Repr

/-- The empty data frame, `pd.DataFrame()`. -/
def DF.emptyDF : DF := ⟨[], []⟩

/-- `df.empty` in pandas: true when any axis has length 0. -/
def DF.isEmpty (df : DF) : Bool := df.rows.isEmpty || df.columns.isEmpty

/-- Maximum row width of a list-of-lists payload. -/
def maxWidth (data : List (List Value)) : Nat :=
  data.foldr (fun r m => max r.length m) 0

/-- Pad a row on the right with null markers up to width `n` (numpy object
arrays are initialised with None, so short rows read back as nulls). -/
def padNull (r : List Value) (n : Nat) : List Value :=
  r ++ List.replicate (n - r.length) Value.null

/-- `pd.DataFrame(data, columns=cols)` for a list of lists: empty data yields a
zero-row frame with the given columns; otherwise the constructor raises when
the maximum row width differs from the number of column labels, and pads
shorter rows with nulls when it matches. -/
def mkDataFrame (data : List (List Value)) (cols : List String) : Except String DF :=
  if data.isEmpty then .ok ⟨cols, []⟩
  else if maxWidth data = cols.length then
    .ok ⟨cols, data.map (fun r => padNull r cols.length)⟩
  else .error "columns passed do not match width of passed data"

/-- A `td` cell: its (un-stripped) text, and the text of a nested
`<a class="school">` element when one is present. -/
structure Cell where
  text : String
  schoolLink : Option String
  deriving DecidableEq, Repr

/-- A `tr` row: the texts of its `th` cells and its `td` cells, in document
order. -/
structure HRow where
  thCells : List String
  tdCells : List Cell
  deriving DecidableEq, Repr

/-- An HTML `table` element: its rows in document order. -/
structure HtmlTable where
  trs : List HRow
  deriving DecidableEq, Repr

/-- Outcome of `requests.get`: a transport failure (exception), or a response
with a status code and a parsed body (`soup.find("table")` result). -/
inductive Response where
  | failure
  | success (status : Nat) (body : Option HtmlTable)

/-- `response.raise_for_status()` raises exactly for 4xx and 5xx codes. -/
def statusRaises (status : Nat) : Bool := 400 ≤ status && status < 600

/-- `table.find_all("th")` text contents, stripped: all header cells of the
table in document order. -/
def headerTexts (t : HtmlTable) : List String :=
  (t.trs.flatMap (fun r => r.thCells)).map pyStrip

namespace Rankings

/-- The table-to-DataFrame part of `fetch_ncaa_net_rankings` (rankings.py):
headers from all `th` cells, rows after the first `tr`, rows with no `td`
dropped, then `pd.DataFrame(data, columns=headers)`; any exception is caught
and the empty frame returned. -/
def extractTable (t : HtmlTable) : DF :=
  let headers := headerTexts t
  let rows := t.trs.drop 1
  let data := rows.filterMap (fun r =>
    if r.tdCells.isEmpty then none
    else some (r.tdCells.map (fun c => Value.str (pyStrip c.text))))
  match mkDataFrame data headers with
  | .ok df => df
  | .error _ => DF.emptyDF

/-- `fetch_ncaa_net_rankings` (rankings.py): GET the page, raise for status,
find the first table (raising if absent), extract it; every exception is
caught and downgraded to the empty frame. -/
def fetch_ncaa_net_rankings (resp : Response) : DF :=
  match resp with
  | .failure => DF.emptyDF
  | .success status body =>
    if statusRaises status then DF.emptyDF
    else
      match body with
      | none => DF.emptyDF
      | some t => extractTable t

/-- The placeholder frame substituted when no data was retrieved
(rankings.py module level). -/
def placeholder : DF :=
  ⟨["Rank", "Team", "Conference", "Overall"], []⟩

/-- `rankings_df` after the module-level emptiness check. -/
def rankings_df (resp : Response) : DF :=
  let df := fetch_ncaa_net_rankings resp
  if df.isEmpty then placeholder else df

/-- The data handed to the `dash_table.DataTable` in the layout: column ids
and row records. -/
structure TableLayout where
  columnIds : List String
  data : List (List Value)
  deriving DecidableEq, Repr

/-- The `dash_table.DataTable` constructed in the rankings layout. -/
def rankings_table_layout (resp : Response) : TableLayout :=
  ⟨(rankings_df resp).columns, (rankings_df resp).rows⟩

end Rankings

/-! Helper lemmas about the list plumbing of the extraction step. -/

theorem flatMap_eq_nil_of_forall {α β : Type} (l : List α) (f : α → List β)
    (h : ∀ x ∈ l, f x = []) : l.flatMap f = [] := by
  induction l with
  | nil => rfl
  | cons a t ih =>
    simp only [List.flatMap_cons, h a (List.mem_cons_self a t),
      ih (fun x hx => h x (List.mem_cons_of_mem a hx)), List.nil_append]

theorem filterMap_ite_eq_filter_map {α β : Type} (l : List α) (p : α → Bool)
    (g : α → β) :
    l.filterMap (fun x => if p x then none else some (g x)) =
      (l.filter (fun x => !p x)).map g := by
  induction l with
  | nil => rfl
  | cons a t ih =>
    by_cases ha : p a
    · simp [List.filterMap_cons, List.filter_cons, ha, ih]
    · simp [List.filterMap_cons, List.filter_cons, ha, ih]

theorem le_maxWidth_of_mem {data : List (List Value)} {r : List Value}
    (h : r ∈ data) : r.length ≤ maxWidth data := by
  induction data with
  | nil => cases h
  | cons a t ih =>
    rcases List.mem_cons.mp h with h | h
    · subst h; exact le_max_left _ _
    · exact le_trans (ih h) (le_max_right _ _)

theorem maxWidth_le_of_forall {data : List (List Value)} {n : Nat}
    (h : ∀ r ∈ data, r.length ≤ n) : maxWidth data ≤ n := by
  induction data with
  | nil => exact Nat.zero_le n
  | cons a t ih =>
    exact max_le (h a (List.mem_cons_self a t))
      (ih (fun r hr => h r (List.mem_cons_of_mem a hr)))

namespace Rankings

/-- C1: for every well-formed HTML table (a header row carrying the N ≥ 1
header cells and no data cells, followed by M data rows with no header cells
and exactly N data cells each), the extraction step of
`fetch_ncaa_net_rankings` returns a frame with exactly the N trimmed header
texts as columns, in document order, and exactly M rows. -/
theorem extract_wellformed_shape (t : HtmlTable) (hr : HRow) (drs : List HRow)
    (ht : t.trs = hr :: drs) (hhd : hr.tdCells = [])
    (hN : 1 ≤ hr.thCells.length)
    (hdr : ∀ dr ∈ drs, dr.thCells = [] ∧ dr.tdCells.length = hr.thCells.length) :
    (extractTable t).columns = hr.thCells.map pyStrip ∧
    (extractTable t).columns.length = hr.thCells.length ∧
    (extractTable t).rows.length = drs.length := by
  have hheaders : headerTexts t = hr.thCells.map pyStrip := by
    rw [headerTexts, ht, List.flatMap_cons,
      flatMap_eq_nil_of_forall drs _ (fun x hx => (hdr x hx).1),
      List.append_nil]
  have hdata :
      (t.trs.drop 1).filterMap (fun r =>
        if r.tdCells.isEmpty then none
        else some (r.tdCells.map (fun c => Value.str (pyStrip c.text)))) =
      drs.map (fun r => r.tdCells.map (fun c => Value.str (pyStrip c.text))) := by
    rw [ht, List.drop_one, List.tail_cons,
      filterMap_ite_eq_filter_map drs (fun r => r.tdCells.isEmpty)]
    have : drs.filter (fun r => !r.tdCells.isEmpty) = drs := by
      apply List.filter_eq_self.mpr
      intro a ha
      have h2 := (hdr a ha).2
      simp only [Bool.not_eq_eq_eq_not, Bool.not_true, List.isEmpty_eq_false]
      intro hnil
      rw [hnil] at h2
      simp at h2
      omega
    rw [this]
  rw [extractTable]
  rw [hheaders, hdata]
  rcases drs with _ | ⟨d0, drest⟩
  · simp [mkDataFrame]
  · have hlen : ∀ r ∈ (d0 :: drest).map
        (fun r => r.tdCells.map (fun c => Value.str (pyStrip c.text))),
        r.length = hr.thCells.length := by
      intro r hrm
      rcases List.mem_map.mp hrm with ⟨a, ha, rfl⟩
      simp [(hdr a ha).2]
    have hmw : maxWidth ((d0 :: drest).map
        (fun r => r.tdCells.map (fun c => Value.str (pyStrip c.text)))) =
        hr.thCells.length := by
      apply le_antisymm
      · exact maxWidth_le_of_forall (fun r hrm => le_of_eq (hlen r hrm))
      · have hm : (d0.tdCells.map (fun c => Value.str (pyStrip c.text))) ∈
            (d0 :: drest).map (fun r => r.tdCells.map (fun c => Value.str (pyStrip c.text))) :=
          List.mem_map_of_mem _ (List.mem_cons_self d0 drest)
        calc hr.thCells.length
            = (d0.tdCells.map (fun c => Value.str (pyStrip c.text))).length := by
              simp [(hdr d0 (List.mem_cons_self d0 drest)).2]
          _ ≤ _ := le_maxWidth_of_mem hm
    simp only [mkDataFrame, List.isEmpty_eq_false, List.map_eq_nil_iff,
      List.length_map, hmw]
    simp

/-- C2: every failure during data acquisition — a transport error, a 4xx/5xx
status that `raise_for_status` turns into an exception, or a page with no
table — makes `fetch_ncaa_net_rankings` return the empty frame rather than
propagate, and the module-level pipeline substitutes the four-column
placeholder, so the dashboard table renders with zero rows. -/
theorem fetch_failure_renders_placeholder (resp : Response)
    (h : resp = .failure ∨
      (∃ c b, resp = .success c b ∧ statusRaises c = true) ∨
      (∃ c, resp = .success c none)) :
    fetch_ncaa_net_rankings resp = DF.emptyDF ∧
    rankings_df resp = placeholder ∧
    (rankings_table_layout resp).data.length = 0 ∧
    (rankings_table_layout resp).columnIds = ["Rank", "Team", "Conference", "Overall"] := by
  have hfetch : fetch_ncaa_net_rankings resp = DF.emptyDF := by
    rcases h with h | ⟨c, b, rfl, hc⟩ | ⟨c, rfl⟩
    · rw [h]; rfl
    · simp [fetch_ncaa_net_rankings, hc]
    · by_cases hc : statusRaises c = true <;>
        simp [fetch_ncaa_net_rankings, hc]
  refine ⟨hfetch, ?_, ?_, ?_⟩ <;>
    simp [rankings_df, rankings_table_layout, hfetch, DF.isEmpty, DF.emptyDF,
      placeholder]

/-- Witness for C2: an HTTP 500 response with no body table yields the empty
frame and a zero-row placeholder dashboard table. -/
theorem fetch_failure_renders_placeholder_witness :
    fetch_ncaa_net_rankings (.success 500 none) = DF.emptyDF ∧
    rankings_df (.success 500 none) = placeholder ∧
    (rankings_table_layout (.success 500 none)).data.length = 0 ∧
    (rankings_table_layout (.success 500 none)).columnIds =
      ["Rank", "Team", "Conference", "Overall"] :=
  fetch_failure_renders_placeholder (.success 500 none)
    (Or.inr (Or.inl ⟨500, none, rfl, by decide⟩))

/-- A table whose single data row has one more cell than the single header
cell: the DataFrame constructor raises and the whole extraction collapses. -/
def extraCellTable : HtmlTable :=
  ⟨[⟨["A"], []⟩, ⟨[], [⟨"x", none⟩, ⟨"y", none⟩]⟩]⟩

/-- C8 counterexample: a data row with one trailing extra cell (2 cells vs 1
header) does not produce a positionally-constructed table — `pd.DataFrame`
raises, the exception is swallowed, and extraction returns the empty frame
with zero columns and zero rows instead of a 1-column, 1-row table. -/
theorem extract_extra_cell_collapses :
    extractTable extraCellTable = DF.emptyDF ∧
    (extractTable extraCellTable).columns.length ≠ 1 ∧
    (extractTable extraCellTable).rows.length ≠ 1 := by
  decide

/-- C8 amended: only rows with *fewer* cells than the header count are
tolerated positionally — provided some kept row reaches the full header
width, extraction succeeds with the header-derived columns authoritative and
short rows silently padded with nulls; a table whose maximum data-row width
differs from the header count (e.g. any row with trailing extra cells)
instead aborts the whole extraction to the empty frame. -/
theorem extract_short_rows_pad (t : HtmlTable) (hr : HRow) (drs : List HRow)
    (ht : t.trs = hr :: drs)
    (hth : ∀ dr ∈ drs, dr.thCells = [])
    (hle : ∀ dr ∈ drs, dr.tdCells.length ≤ hr.thCells.length)
    (hex : ∃ dr ∈ drs, dr.tdCells.length = hr.thCells.length)
    (hN : 1 ≤ hr.thCells.length) :
    extractTable t =
      ⟨hr.thCells.map pyStrip,
        (drs.filter (fun r => !r.tdCells.isEmpty)).map (fun r =>
          padNull (r.tdCells.map (fun c => Value.str (pyStrip c.text)))
            hr.thCells.length)⟩ := by
  have hheaders : headerTexts t = hr.thCells.map pyStrip := by
    rw [headerTexts, ht, List.flatMap_cons,
      flatMap_eq_nil_of_forall drs _ hth, List.append_nil]
  have hdata :
      (t.trs.drop 1).filterMap (fun r =>
        if r.tdCells.isEmpty then none
        else some (r.tdCells.map (fun c => Value.str (pyStrip c.text)))) =
      (drs.filter (fun r => !r.tdCells.isEmpty)).map
        (fun r => r.tdCells.map (fun c => Value.str (pyStrip c.text))) := by
    rw [ht, List.drop_one, List.tail_cons,
      filterMap_ite_eq_filter_map drs (fun r => r.tdCells.isEmpty)]
  obtain ⟨d0, hd0, hd0len⟩ := hex
  have hd0kept : d0 ∈ drs.filter (fun r => !r.tdCells.isEmpty) := by
    apply List.mem_filter.mpr
    refine ⟨hd0, ?_⟩
    simp only [Bool.not_eq_eq_eq_not, Bool.not_true, List.isEmpty_eq_false]
    intro hnil
    rw [hnil] at hd0len
    simp at hd0len
    omega
  have hdne : (drs.filter (fun r => !r.tdCells.isEmpty)).map
      (fun r => r.tdCells.map (fun c => Value.str (pyStrip c.text))) ≠ [] := by
    intro hcon
    rw [List.map_eq_nil_iff.mp hcon] at hd0kept
    exact List.not_mem_nil d0 hd0kept
  have hmw : maxWidth ((drs.filter (fun r => !r.tdCells.isEmpty)).map
      (fun r => r.tdCells.map (fun c => Value.str (pyStrip c.text)))) =
      hr.thCells.length := by
    apply le_antisymm
    · apply maxWidth_le_of_forall
      intro r hrm
      rcases List.mem_map.mp hrm with ⟨a, ha, rfl⟩
      simpa using hle a (List.mem_filter.mp ha).1
    · calc hr.thCells.length
          = (d0.tdCells.map (fun c => Value.str (pyStrip c.text))).length := by
            simp [hd0len]
        _ ≤ _ := le_maxWidth_of_mem (List.mem_map_of_mem (fun r => r.tdCells.map (fun c => Value.str (pyStrip c.text))) hd0kept)
  rw [extractTable, hheaders, hdata, mkDataFrame]
  rw [if_neg (by simpa using hdne)]
  rw [List.length_map, hmw, if_pos rfl, List.map_map]
  rfl

/-- Witness for C8 amended: header cells A, B; one full-width data row and one
one-cell data row; the short row is kept and padded with a null. -/
theorem extract_short_rows_pad_witness :
    extractTable ⟨[⟨["A", "B"], []⟩,
        ⟨[], [⟨"x", none⟩, ⟨"y", none⟩]⟩, ⟨[], [⟨"z", none⟩]⟩]⟩ =
      ⟨["A", "B"], [[Value.str "x", Value.str "y"],
        [Value.str "z", Value.null]]⟩ := by
  have h := extract_short_rows_pad
    ⟨[⟨["A", "B"], []⟩, ⟨[], [⟨"x", none⟩, ⟨"y", none⟩]⟩, ⟨[], [⟨"z", none⟩]⟩]⟩
    ⟨["A", "B"], []⟩ [⟨[], [⟨"x", none⟩, ⟨"y", none⟩]⟩, ⟨[], [⟨"z", none⟩]⟩]
    rfl (by decide) (by decide) ⟨⟨[], [⟨"x", none⟩, ⟨"y", none⟩]⟩, by decide⟩
    (by decide)
  rw [h]
  decide

/-- Witness for C1: a two-header table with one full data row extracts to two
columns in header order and one row. -/
theorem extract_wellformed_shape_witness :
    (extractTable ⟨[⟨["Rank", "Team"], []⟩,
        ⟨[], [⟨"1", none⟩, ⟨"Duke", none⟩]⟩]⟩).columns =
      ["Rank", "Team"].map pyStrip ∧
    (extractTable ⟨[⟨["Rank", "Team"], []⟩,
        ⟨[], [⟨"1", none⟩, ⟨"Duke", none⟩]⟩]⟩).columns.length = 2 ∧
    (extractTable ⟨[⟨["Rank", "Team"], []⟩,
        ⟨[], [⟨"1", none⟩, ⟨"Duke", none⟩]⟩]⟩).rows.length = 1 :=
  extract_wellformed_shape
    ⟨[⟨["Rank", "Team"], []⟩, ⟨[], [⟨"1", none⟩, ⟨"Duke", none⟩]⟩]⟩
    ⟨["Rank", "Team"], []⟩ [⟨[], [⟨"1", none⟩, ⟨"Duke", none⟩]⟩]
    rfl rfl (by decide) (by decide)

end Rankings

/-! stats.py: the team-stats extractor, numeric coercion and the dashboard
update callback. -/

/-- Digits of a numeral, most significant first, to a natural number. -/
def digitsToNat (cs : List Char) : Nat :=
  cs.foldl (fun a c => a * 10 + (c.toNat - 48)) 0

/-- An optional leading sign, as in the C parser behind `pd.to_numeric`. -/
def parseSign : List Char → Int × List Char
  | '+' :: cs => (1, cs)
  | '-' :: cs => (-1, cs)
  | cs => (1, cs)

/-- Parse a decimal numeral with optional sign, fraction and exponent, the
string forms accepted by `pd.to_numeric`; `none` when the text is not fully
consumed or carries no digits. -/
def parseNum (s : String) : Option Rat :=
  let (sgn, cs) := parseSign s.data
  let ip := cs.takeWhile Char.isDigit
  let cs := cs.dropWhile Char.isDigit
  let (fp, cs) :=
    match cs with
    | '.' :: rest => (rest.takeWhile Char.isDigit, rest.dropWhile Char.isDigit)
    | _ => ([], cs)
  if ip.isEmpty && fp.isEmpty then none
  else
    let m : Int := sgn * (digitsToNat (ip ++ fp) : Int)
    let den : Nat := 10 ^ fp.length
    match cs with
    | [] => some (mkRat m den)
    | 'e' :: rest | 'E' :: rest =>
      let (esgn, rest) := parseSign rest
      let ed := rest.takeWhile Char.isDigit
      let rest := rest.dropWhile Char.isDigit
      if ed.isEmpty || !rest.isEmpty then none
      else
        let e10 : Nat := 10 ^ digitsToNat ed
        if esgn < 0 then some (mkRat m (den * e10))
        else some (mkRat (m * (e10 : Int)) den)
    | _ => none

/-- `pd.to_numeric(·, errors="coerce")` on one cell: numbers and nulls pass
through, strings are parsed, anything unparseable becomes the null marker. -/
def toNumeric : Value → Value
  | .num q => .num q
  | .null => .null
  | .str s =>
    match parseNum s with
    | some q => .num q
    | none => .null

/-- First index of a column label, `df.columns.get_loc`-style. -/
def colIdx (cols : List String) (n : String) : Nat := cols.indexOf n

/-- `df[col] = pd.to_numeric(df[col], errors="coerce")` for one label: raises
(KeyError, or TypeError on a duplicated label selecting a sub-frame) unless
the label occurs exactly once. -/
def setColNumeric (df : DF) (n : String) : Except String DF :=
  if df.columns.count n = 1 then
    let i := colIdx df.columns n
    .ok ⟨df.columns, df.rows.map (fun r => r.set i (toNumeric (r.getD i .null)))⟩
  else .error "column selection failed"

/-- The coercion loop `for col in headers[2:]` of stats.py. -/
def coerceCols (df : DF) (names : List String) : Except String DF :=
  match names with
  | [] => .ok df
  | n :: rest => do
    let df1 ← setColNumeric df n
    coerceCols df1 rest

namespace Stats

/-- The sentinel used when a team cell has no nested school link. -/
def unknownTeam : String := "Unknown Team"

/-- The team name taken from a data row: the stripped text of the nested
`<a class="school">` in `cells[1]` when present, else the sentinel. -/
def teamNameOf (r : HRow) : String :=
  match (r.tdCells.getD 1 ⟨"", none⟩).schoolLink with
  | some s => pyStrip s
  | none => unknownTeam

/-- The row loop of `fetch_ncaa_team_stats`: rows with no `td` are skipped;
a kept row must have a second cell (`cells[1]`), otherwise the IndexError
propagates; otherwise its cells are stripped and the second replaced by the
extracted team name. -/
def statsRows : List HRow → Except String (List (List Value))
  | [] => .ok []
  | r :: rest =>
    if r.tdCells.isEmpty then statsRows rest
    else
      match r.tdCells.get? 1 with
      | none => .error "IndexError: list index out of range"
      | some c1 =>
        let teamName :=
          match c1.schoolLink with
          | some s => pyStrip s
          | none => unknownTeam
        let cols := (r.tdCells.map (fun c => Value.str (pyStrip c.text))).set 1
          (Value.str teamName)
        do
          let ds ← statsRows rest
          pure (cols :: ds)

/-- `fetch_ncaa_team_stats` (stats.py): headers from all `th` cells, the row
loop with team-name extraction, `pd.DataFrame(data, columns=headers)`, then
numeric coercion of every column after the first two; any exception anywhere
is caught and the empty frame returned. -/
def fetch_ncaa_team_stats (resp : Response) : DF :=
  match resp with
  | .failure => DF.emptyDF
  | .success status body =>
    if statusRaises status then DF.emptyDF
    else
      match body with
      | none => DF.emptyDF
      | some t =>
        let headers := headerTexts t
        match statsRows (t.trs.drop 1) with
        | .error _ => DF.emptyDF
        | .ok data =>
          match mkDataFrame data headers with
          | .error _ => DF.emptyDF
          | .ok df =>
            match coerceCols df (headers.drop 2) with
            | .error _ => DF.emptyDF
            | .ok df2 => df2

end Stats

/-- C4: numeric coercion never raises: on every string it yields either a
number or the null marker; it is idempotent, so re-parsing an already-numeric
value yields the same value; and every string the numeric parser rejects
yields the null marker. -/
theorem toNumeric_total_idempotent :
    (∀ s : String,
      (∃ q, toNumeric (.str s) = .num q) ∨ toNumeric (.str s) = .null) ∧
    (∀ v : Value, toNumeric (toNumeric v) = toNumeric v) ∧
    (∀ s : String, parseNum s = none → toNumeric (.str s) = .null) := by
  refine ⟨?_, ?_, ?_⟩
  · intro s
    cases h : parseNum s with
    | some q => exact Or.inl ⟨q, by simp [toNumeric, h]⟩
    | none => exact Or.inr (by simp [toNumeric, h])
  · intro v
    cases v with
    | num q => rfl
    | null => rfl
    | str s =>
      cases h : parseNum s with
      | some q => simp [toNumeric, h]
      | none => simp [toNumeric, h]
  · intro s h
    simp [toNumeric, h]

/-- Witness for C4: the non-numeric cell text is rejected by the parser and
coerced to null, and coercion of an already-coerced numeric cell is stable. -/
theorem toNumeric_total_idempotent_witness :
    toNumeric (.str "N/A") = .null ∧
    toNumeric (toNumeric (.str "80.5")) = toNumeric (.str "80.5") :=
  ⟨toNumeric_total_idempotent.2.2 "N/A" (by decide),
    toNumeric_total_idempotent.2.1 (.str "80.5")⟩

namespace Stats

/-- A stats table whose data row has only one cell: `cells[1]` raises. -/
def singleCellTable : HtmlTable :=
  ⟨[⟨["Rank", "Team", "PTS"], []⟩, ⟨[], [⟨"1", none⟩]⟩]⟩

/-- The same table with a full data row carrying a school link. -/
def fullRowTable : HtmlTable :=
  ⟨[⟨["Rank", "Team", "PTS"], []⟩,
    ⟨[], [⟨"1", none⟩, ⟨"x", some " Duke "⟩, ⟨"80.5", none⟩]⟩]⟩

/-- C10 counterexample: team-name extraction is not failure-free for every
processed data row — a nonempty row with a single cell makes `cells[1]` raise
IndexError, and the whole extraction collapses to the empty frame, while the
same table with a full row extracts normally (school-link text as the team
name). -/
theorem stats_single_cell_row_aborts :
    fetch_ncaa_team_stats (.success 200 (some singleCellTable)) = DF.emptyDF ∧
    fetch_ncaa_team_stats (.success 200 (some fullRowTable)) =
      ⟨["Rank", "Team", "PTS"],
        [[.str "1", .str "Duke", .num (mkRat 161 2)]]⟩ := by
  decide

/-- C10 amended: for every data row with at least two cells, row processing
never fails: the team name placed in the second column is the stripped text
of the nested school link when present and the sentinel "Unknown Team"
otherwise; a nonempty data row with fewer than two cells instead raises an
IndexError that aborts the whole extraction (caught at the fetch boundary,
which returns the empty frame). -/
theorem statsRows_team_name (rows : List HRow)
    (h : ∀ r ∈ rows, r.tdCells ≠ [] → 2 ≤ r.tdCells.length) :
    statsRows rows = .ok ((rows.filter (fun r => !r.tdCells.isEmpty)).map
      (fun r => (r.tdCells.map (fun c => Value.str (pyStrip c.text))).set 1
        (Value.str (teamNameOf r)))) := by
  induction rows with
  | nil => rfl
  | cons r rest ih =>
    have hrest := ih (fun x hx hne => h x (List.mem_cons_of_mem r hx) hne)
    by_cases hre : r.tdCells.isEmpty
    · rw [statsRows, if_pos hre, hrest, List.filter_cons]
      simp [hre]
    · have hne : r.tdCells ≠ [] := by
        simpa [List.isEmpty_iff] using hre
      have hlen := h r (List.mem_cons_self r rest) hne
      rcases hcells : r.tdCells with _ | ⟨a, _ | ⟨b, tl⟩⟩
      · exact absurd hcells hne
      · rw [hcells] at hlen; simp at hlen
      · rw [statsRows, if_neg hre, hcells]
        simp only [List.get?_cons_succ, List.get?_cons_zero]
        rw [hrest, List.filter_cons]
        simp only [hre, Bool.not_false, if_pos]
        have hteam : teamNameOf r =
            match b.schoolLink with
            | some s => pyStrip s
            | none => unknownTeam := by
          rw [teamNameOf, hcells]
          rfl
        simp [hcells, hteam]

/-- Witness for C10 amended: one full data row with a school link processes
to a single row whose second value is the stripped link text. -/
theorem statsRows_team_name_witness :
    statsRows [⟨[], [⟨"1", none⟩, ⟨"x", some " Duke "⟩, ⟨"80.5", none⟩]⟩] =
      .ok [[.str "1", .str "Duke", .str "80.5"]] := by
  have h := statsRows_team_name
    [⟨[], [⟨"1", none⟩, ⟨"x", some " Duke "⟩, ⟨"80.5", none⟩]⟩]
    (by decide)
  rw [h]
  exact congrArg Except.ok (by decide)

end Stats

/-! The dashboard update callbacks. -/

/-- `series.isin(selected)` membership for one cell against the selected
team names: only an equal string matches; numbers and nulls never do. -/
def valueIsIn (v : Value) (ts : List String) : Bool :=
  match v with
  | .str t => ts.contains t
  | _ => false

/-- The column of values under a unique label, `df[name]`; raises (KeyError,
or a frame-valued selection) unless the label occurs exactly once. -/
def DF.col (df : DF) (n : String) : Except String (List Value) :=
  if df.columns.count n = 1 then
    .ok (df.rows.map (fun r => r.getD (colIdx df.columns n) .null))
  else .error "column selection failed"

namespace Stats

/-- The team filter of `update_dashboard` (stats.py):
`if selected_teams: filtered_df = filtered_df[filtered_df["Team"].isin(selected_teams)]`;
`None` and the empty list are falsy, leaving the frame unfiltered. -/
def filterByTeams (df : DF) (sel : Option (List String)) : Except String DF :=
  match sel with
  | none => .ok df
  | some ts =>
    if ts.isEmpty then .ok df
    else
      if df.columns.count "Team" = 1 then
        .ok ⟨df.columns, df.rows.filter (fun r =>
          valueIsIn (r.getD (colIdx df.columns "Team") .null) ts)⟩
      else .error "KeyError: Team"

/-- One bar trace of the figure: category axis values, series values, and the
series name. -/
structure BarSeries where
  x : List Value
  y : List Value
  name : String
  deriving DecidableEq, Repr

/-- The bar-trace list comprehension of `update_dashboard` (stats.py): one
grouped-bar series per selected stat, `x` the Team column of the filtered
frame and `y` that stat column, fan over the selected names in order. -/
def seriesFor (df : DF) : List String → Except String (List BarSeries)
  | [] => .ok []
  | s :: rest => do
    let team ← df.col "Team"
    let ys ← df.col s
    let tail ← seriesFor df rest
    pure (⟨team, ys, s⟩ :: tail)

/-- The figure branch of `update_dashboard` (stats.py): a falsy stat
selection yields the placeholder figure with no traces, otherwise one bar
trace per selected stat. -/
def update_figure (df : DF) (sel : Option (List String)) :
    Except String (List BarSeries) :=
  match sel with
  | none => .ok []
  | some stats =>
    if stats.isEmpty then .ok []
    else seriesFor df stats

/-- C6: for every non-empty selection of stat columns, each present exactly
once in the frame (as the stat dropdown guarantees), and a frame carrying a
unique Team column, the figure holds exactly one bar series per selected
stat, in selection order; each series' category axis is the Team column of
the filtered frame in row order and its value sequence is that stat's column
in the same row order — in particular both have length equal to the filtered
row count. -/
theorem update_figure_series (df : DF) (stats : List String)
    (hne : stats ≠ [])
    (hteam : df.columns.count "Team" = 1)
    (hstats : ∀ s ∈ stats, df.columns.count s = 1) :
    update_figure df (some stats) =
      .ok (stats.map (fun s =>
        ⟨df.rows.map (fun r => r.getD (colIdx df.columns "Team") .null),
          df.rows.map (fun r => r.getD (colIdx df.columns s) .null), s⟩)) ∧
    (∀ out, update_figure df (some stats) = .ok out →
      out.length = stats.length ∧
      ∀ b ∈ out, b.x.length = df.rows.length ∧
        b.y.length = df.rows.length) := by
  have hser : ∀ l : List String, (∀ s ∈ l, df.columns.count s = 1) →
      seriesFor df l = .ok (l.map (fun s =>
        ⟨df.rows.map (fun r => r.getD (colIdx df.columns "Team") .null),
          df.rows.map (fun r => r.getD (colIdx df.columns s) .null), s⟩)) := by
    intro l
    induction l with
    | nil => intro _; rfl
    | cons s rest ih =>
      intro hl
      rw [seriesFor]
      rw [show df.col "Team" = .ok (df.rows.map
        (fun r => r.getD (colIdx df.columns "Team") .null)) from by
          rw [DF.col, if_pos hteam]]
      rw [show df.col s = .ok (df.rows.map
        (fun r => r.getD (colIdx df.columns s) .null)) from by
          rw [DF.col, if_pos (hl s (List.mem_cons_self s rest))]]
      rw [ih (fun x hx => hl x (List.mem_cons_of_mem s hx))]
      rfl
  have hmain : update_figure df (some stats) =
      .ok (stats.map (fun s =>
        ⟨df.rows.map (fun r => r.getD (colIdx df.columns "Team") .null),
          df.rows.map (fun r => r.getD (colIdx df.columns s) .null), s⟩)) := by
    rw [update_figure, if_neg (by simpa [List.isEmpty_iff] using hne)]
    exact hser stats hstats
  refine ⟨hmain, ?_⟩
  intro out hout
  rw [hmain] at hout
  cases hout
  constructor
  · exact List.length_map _ _
  · intro b hb
    rcases List.mem_map.mp hb with ⟨s, _, rfl⟩
    exact ⟨List.length_map _ _, List.length_map _ _⟩

/-- Witness for C6: two selected stats over a one-row frame give two aligned
single-point series. -/
theorem update_figure_series_witness :
    update_figure ⟨["Rank", "Team", "PTS", "FG"],
        [[.str "1", .str "A", .num 80, .num 50]]⟩ (some ["PTS", "FG"]) =
      .ok [⟨[.str "A"], [.num 80], "PTS"⟩, ⟨[.str "A"], [.num 50], "FG"⟩] := by
  have h := (update_figure_series
    ⟨["Rank", "Team", "PTS", "FG"], [[.str "1", .str "A", .num 80, .num 50]]⟩
    ["PTS", "FG"] (by decide) (by decide) (by decide)).1
  rw [h]
  exact congrArg Except.ok (by decide)

end Stats

/-! fieldgoalpercentage.py: merge of the stats and rankings frames, and the
conference filter of its update callback. -/

namespace FieldGoal

/-- `df[[...names...]]` column selection; exceptions (a missing label, or a
duplicated label whose selection derails the later merge) are modelled as an
error outcome. -/
def selectCols (df : DF) (names : List String) : Except String DF :=
  if names.all (fun n => df.columns.count n = 1) then
    .ok ⟨names, df.rows.map (fun r =>
      names.map (fun n => r.getD (colIdx df.columns n) .null))⟩
  else .error "column selection failed"

/-- `pd.merge(l, r, on=key, how="left")`: every left row in order, fanned out
over its matching right rows (right order, NaN-keyed rows match each other
under pandas factorisation); an unmatched left row keeps nulls for the
right's non-key columns; overlapping non-key labels get the `_x`/`_y`
suffixes; a missing or duplicated key label raises. -/
def pdMergeLeft (l r : DF) (key : String) : Except String DF :=
  if l.columns.count key = 1 && r.columns.count key = 1 then
    let li := colIdx l.columns key
    let ri := colIdx r.columns key
    let rIdx := (List.range r.columns.length).filter (fun j => j ≠ ri)
    let lcols := l.columns.map (fun c =>
      if c ≠ key && r.columns.contains c then c ++ "_x" else c)
    let rcols := rIdx.map (fun j =>
      let c := r.columns.getD j ""
      if l.columns.contains c then c ++ "_y" else c)
    let rows := l.rows.flatMap (fun lr =>
      let k := lr.getD li Value.null
      let ms := r.rows.filter (fun rr => rr.getD ri Value.null == k)
      if ms.isEmpty then [lr ++ rIdx.map (fun _ => Value.null)]
      else ms.map (fun rr => lr ++ rIdx.map (fun j => rr.getD j Value.null)))
    .ok ⟨lcols ++ rcols, rows⟩
  else .error "merge key error"

/-- `merged_df[n] = [v] * len(merged_df)`: append a constant column. -/
def addConstCol (df : DF) (n : String) (v : Value) : DF :=
  ⟨df.columns ++ [n], df.rows.map (fun r => r ++ [v])⟩

/-- `merge_stats_and_rankings` (fieldgoalpercentage.py): when both frames are
non-empty, left-merge the stats frame with the rankings' Team/Rank columns
on "Team" and guarantee a Conference column on the merge output; otherwise
return the stats frame unchanged. Exceptions raised inside the merge
propagate (there is no try/except around this function). -/
def merge_stats_and_rankings (stats rankings : DF) : Except String DF :=
  if !stats.isEmpty && !rankings.isEmpty then
    match selectCols rankings ["Team", "Rank"] with
    | .error e => .error e
    | .ok sel =>
      match pdMergeLeft stats sel "Team" with
      | .error e => .error e
      | .ok merged =>
        if merged.columns.contains "Conference" then .ok merged
        else .ok (addConstCol merged "Conference" (.str "Unknown Conference"))
  else .ok stats

/-- C9: if either input frame is empty, merge is a no-op returning the
primary (stats) frame itself — same columns, same rows, same row count. -/
theorem merge_empty_noop (stats rankings : DF)
    (h : stats.isEmpty = true ∨ rankings.isEmpty = true) :
    merge_stats_and_rankings stats rankings = .ok stats := by
  rw [merge_stats_and_rankings]
  rcases h with h | h <;> simp [h]

/-- Witness for C9: a one-row primary merged with the empty frame comes back
unchanged. -/
theorem merge_empty_noop_witness :
    merge_stats_and_rankings ⟨["Team"], [[.str "A"]]⟩ DF.emptyDF =
      .ok ⟨["Team"], [[.str "A"]]⟩ :=
  merge_empty_noop ⟨["Team"], [[.str "A"]]⟩ DF.emptyDF (Or.inr (by decide))

/-- C7 counterexample: the merge step does not guarantee a Conference column
for every pair of input tables — with an empty primary (a failed stats
fetch) and a non-empty rankings frame, merge returns the primary unchanged,
a frame with no Conference column at all. -/
theorem merge_missing_conference :
    merge_stats_and_rankings DF.emptyDF ⟨["Team", "Rank"], [[.str "A", .str "1"]]⟩ =
      .ok DF.emptyDF ∧
    DF.emptyDF.columns.contains "Conference" = false := by
  decide

/-- C7 amended: whenever both input frames are non-empty and the merge
succeeds, the resulting frame does contain a "Conference" column (appended
with the "Unknown Conference" sentinel when the merge output lacks it); when
either input is empty the primary is returned unchanged, so the guarantee
holds only if the primary already carries the column. -/
theorem merge_nonempty_has_conference (stats rankings df : DF)
    (hs : stats.isEmpty = false) (hr : rankings.isEmpty = false)
    (h : merge_stats_and_rankings stats rankings = .ok df) :
    df.columns.contains "Conference" = true := by
  rw [merge_stats_and_rankings, hs, hr] at h
  simp only [Bool.not_false, Bool.and_self, if_true] at h
  cases hsel : selectCols rankings ["Team", "Rank"] with
  | error e =>
    simp only [hsel] at h
    cases h
  | ok sel =>
    simp only [hsel] at h
    cases hm : pdMergeLeft stats sel "Team" with
    | error e =>
      simp only [hm] at h
      cases h
    | ok merged =>
      simp only [hm] at h
      by_cases hc : merged.columns.contains "Conference"
      · rw [if_pos hc] at h
        cases h
        exact hc
      · rw [if_neg hc] at h
        cases h
        simp [addConstCol]

/-- Witness for C7 amended: two non-empty frames without a Conference column
merge into a frame that carries the appended sentinel column. -/
theorem merge_nonempty_has_conference_witness :
    (⟨["Team", "Rank", "Conference"],
        [[.str "A", .str "1", .str "Unknown Conference"]]⟩ : DF).columns.contains
      "Conference" = true :=
  merge_nonempty_has_conference ⟨["Team"], [[.str "A"]]⟩
    ⟨["Team", "Rank"], [[.str "A", .str "1"]]⟩
    ⟨["Team", "Rank", "Conference"],
      [[.str "A", .str "1", .str "Unknown Conference"]]⟩
    (by decide) (by decide) (by decide)

/-- The conference filter of `update_dashboard` (fieldgoalpercentage.py):
`if selected_conference and selected_conference != "All":` — `None` and the
empty string are falsy and the "All" sentinel is excluded, all three leaving
the frame unfiltered; otherwise keep rows whose Conference equals the
selection. -/
def filterByConference (df : DF) (sel : Option String) : Except String DF :=
  match sel with
  | none => .ok df
  | some c =>
    if c = "" || c = "All" then .ok df
    else
      if df.columns.count "Conference" = 1 then
        .ok ⟨df.columns, df.rows.filter (fun r =>
          r.getD (colIdx df.columns "Conference") .null == Value.str c)⟩
      else .error "KeyError: Conference"

end FieldGoal

/-- C5: row filtering in both update callbacks is a projection — whenever the
filter evaluates, the filtered row count never exceeds the source row count;
and an empty selection (`None` or an empty team list for the team
multi-select; `None`, `""` or the "All" sentinel for the conference
single-select) returns the full unfiltered frame, not an empty one. -/
theorem update_filters_projection :
    (∀ df : DF, Stats.filterByTeams df none = .ok df ∧
      Stats.filterByTeams df (some []) = .ok df) ∧
    (∀ (df : DF) (sel : Option (List String)) (df2 : DF),
      Stats.filterByTeams df sel = .ok df2 →
        df2.rows.length ≤ df.rows.length) ∧
    (∀ df : DF, FieldGoal.filterByConference df none = .ok df ∧
      FieldGoal.filterByConference df (some "All") = .ok df ∧
      FieldGoal.filterByConference df (some "") = .ok df) ∧
    (∀ (df : DF) (sel : Option String) (df2 : DF),
      FieldGoal.filterByConference df sel = .ok df2 →
        df2.rows.length ≤ df.rows.length) := by
  refine ⟨?_, ?_, ?_, ?_⟩
  · intro df
    exact ⟨rfl, rfl⟩
  · intro df sel df2 h
    match sel with
    | none =>
      rw [Stats.filterByTeams] at h
      cases h
      exact le_refl _
    | some ts =>
      rw [Stats.filterByTeams] at h
      by_cases hts : ts.isEmpty
      · rw [if_pos hts] at h
        cases h
        exact le_refl _
      · rw [if_neg hts] at h
        by_cases hc : df.columns.count "Team" = 1
        · rw [if_pos hc] at h
          cases h
          exact List.length_filter_le _ _
        · rw [if_neg hc] at h
          cases h
  · intro df
    refine ⟨rfl, ?_, ?_⟩ <;> rw [FieldGoal.filterByConference] <;> rw [if_pos (by decide)]
  · intro df sel df2 h
    match sel with
    | none =>
      rw [FieldGoal.filterByConference] at h
      cases h
      exact le_refl _
    | some c =>
      rw [FieldGoal.filterByConference] at h
      by_cases hcf : c = "" || c = "All"
      · rw [if_pos hcf] at h
        cases h
        exact le_refl _
      · rw [if_neg hcf] at h
        by_cases hc : df.columns.count "Conference" = 1
        · rw [if_pos hc] at h
          cases h
          exact List.length_filter_le _ _
        · rw [if_neg hc] at h
          cases h

/-! Helper lemmas for the left-join proof. -/

theorem flatMap_eq_map_of_forall {α β : Type} (l : List α) (f : α → List β)
    (g : α → β) (h : ∀ x ∈ l, f x = [g x]) : l.flatMap f = l.map g := by
  induction l with
  | nil => rfl
  | cons a t ih =>
    rw [List.flatMap_cons, h a (List.mem_cons_self a t),
      ih (fun x hx => h x (List.mem_cons_of_mem a hx)), List.map_cons,
      List.singleton_append]

theorem getD_map_lt {α β : Type} (l : List α) (g : α → β) (i : Nat)
    (d1 : α) (d2 : β) (hi : i < l.length) :
    (l.map g).getD i d2 = g (l.getD i d1) := by
  induction l generalizing i with
  | nil => simp at hi
  | cons a t ih =>
    cases i with
    | zero => rfl
    | succ j =>
      simp only [List.map_cons, List.getD_cons_succ]
      exact ih j (by simpa using hi)

theorem getD_append_len {α : Type} (xs : List α) (v : α) (rest : List α)
    (d : α) : (xs ++ v :: rest).getD xs.length d = v := by
  induction xs with
  | nil => rfl
  | cons a t ih => simpa using ih

theorem filter_eq_find_of_nodup {α : Type} (l : List α) (f : α → Value)
    (k : Value) (hnd : (l.map f).Nodup) :
    l.filter (fun x => f x == k) =
      (match l.find? (fun x => f x == k) with
       | some x => [x]
       | none => []) := by
  induction l with
  | nil => rfl
  | cons a t ih =>
    have hnd2 : f a ∉ t.map f ∧ (t.map f).Nodup := by
      rw [List.map_cons] at hnd
      exact List.nodup_cons.mp hnd
    by_cases ha : (f a == k) = true
    · rw [@List.filter_cons_of_pos _ (fun x => f x == k) a t ha,
        @List.find?_cons_of_pos _ (fun x => f x == k) a t ha]
      have hfa : f a = k := eq_of_beq ha
      have hnil : t.filter (fun x => f x == k) = [] := by
        apply List.filter_eq_nil_iff.mpr
        intro x hx hbeq
        have hfx : f x = k := eq_of_beq hbeq
        apply hnd2.1
        rw [← hfa] at hfx
        exact hfx ▸ List.mem_map_of_mem f hx
      rw [hnil]
    · rw [@List.filter_cons_of_neg _ (fun x => f x == k) a t (by simpa using ha),
        @List.find?_cons_of_neg _ (fun x => f x == k) a t (by simpa using ha)]
      exact ih hnd2.2

namespace FieldGoal

/-- The Rank value the left join attaches for a primary key `k`: the Rank
cell of the first rankings row whose Team key matches, or null when no row
matches. -/
def rankLookup (rankings : DF) (k : Value) : Value :=
  match rankings.rows.find? (fun rr =>
      rr.getD (colIdx rankings.columns "Team") Value.null == k) with
  | some rr => rr.getD (colIdx rankings.columns "Rank") Value.null
  | none => Value.null

theorem pdMergeLeft_team_rank (l : DF) (selRows : List (List Value))
    (hlT : l.columns.count "Team" = 1)
    (hnd : (selRows.map (fun rr => rr.getD 0 Value.null)).Nodup) :
    ∃ cols, pdMergeLeft l ⟨["Team", "Rank"], selRows⟩ "Team" =
      .ok ⟨cols, l.rows.map (fun lr =>
        lr ++ [match selRows.find? (fun rr => rr.getD 0 Value.null ==
            lr.getD (colIdx l.columns "Team") Value.null) with
          | some rr => rr.getD 1 Value.null
          | none => Value.null])⟩ := by
  have hcond : (decide (l.columns.count "Team" = 1) &&
      decide (((⟨["Team", "Rank"], selRows⟩ : DF)).columns.count "Team" = 1)) =
      true := by
    rw [decide_eq_true hlT]
    show (true && decide (List.count "Team" (["Team", "Rank"] : List String) = 1)) = true
    decide
  have hunfold : pdMergeLeft l ⟨["Team", "Rank"], selRows⟩ "Team" =
      if (l.columns.count "Team" = 1 &&
          ((⟨["Team", "Rank"], selRows⟩ : DF)).columns.count "Team" = 1) then
        .ok ⟨l.columns.map (fun c =>
            if c ≠ "Team" && (["Team", "Rank"] : List String).contains c
            then c ++ "_x" else c) ++
          ((List.range (["Team", "Rank"] : List String).length).filter
            (fun j => j ≠ colIdx ["Team", "Rank"] "Team")).map (fun j =>
              let c := (["Team", "Rank"] : List String).getD j ""
              if l.columns.contains c then c ++ "_y" else c),
          l.rows.flatMap (fun lr =>
            let k := lr.getD (colIdx l.columns "Team") Value.null
            let ms := selRows.filter (fun rr => rr.getD 0 Value.null == k)
            if ms.isEmpty then [lr ++ [Value.null]]
            else ms.map (fun rr => lr ++ [rr.getD 1 Value.null]))⟩
      else .error "merge key error" := rfl
  refine ⟨l.columns.map (fun c =>
      if c ≠ "Team" && (["Team", "Rank"] : List String).contains c
      then c ++ "_x" else c) ++
    ((List.range (["Team", "Rank"] : List String).length).filter
      (fun j => j ≠ colIdx ["Team", "Rank"] "Team")).map (fun j =>
        let c := (["Team", "Rank"] : List String).getD j ""
        if l.columns.contains c then c ++ "_y" else c), ?_⟩
  rw [hunfold, if_pos hcond]
  have hchunk : ∀ lr ∈ l.rows,
      (let k := lr.getD (colIdx l.columns "Team") Value.null
       let ms := selRows.filter (fun rr => rr.getD 0 Value.null == k)
       if ms.isEmpty then [lr ++ [Value.null]]
       else ms.map (fun rr => lr ++ [rr.getD 1 Value.null])) =
      [lr ++ [match selRows.find? (fun rr => rr.getD 0 Value.null ==
          lr.getD (colIdx l.columns "Team") Value.null) with
        | some rr => rr.getD 1 Value.null
        | none => Value.null]] := by
    intro lr _
    show (if (selRows.filter (fun rr => rr.getD 0 Value.null ==
        lr.getD (colIdx l.columns "Team") Value.null)).isEmpty
      then [lr ++ [Value.null]]
      else (selRows.filter (fun rr => rr.getD 0 Value.null ==
        lr.getD (colIdx l.columns "Team") Value.null)).map
          (fun rr => lr ++ [rr.getD 1 Value.null])) = _
    rw [filter_eq_find_of_nodup selRows (fun rr => rr.getD 0 Value.null) _ hnd]
    cases hf : selRows.find? (fun rr => rr.getD 0 Value.null ==
        lr.getD (colIdx l.columns "Team") Value.null) with
    | none => rfl
    | some r0 => rfl
  rw [flatMap_eq_map_of_forall l.rows
    (fun lr =>
      let k := lr.getD (colIdx l.columns "Team") Value.null
      let ms := selRows.filter (fun rr => rr.getD 0 Value.null == k)
      if ms.isEmpty then [lr ++ [Value.null]]
      else ms.map (fun rr => lr ++ [rr.getD 1 Value.null]))
    (fun lr =>
      lr ++ [match selRows.find? (fun rr => rr.getD 0 Value.null ==
          lr.getD (colIdx l.columns "Team") Value.null) with
        | some rr => rr.getD 1 Value.null
        | none => Value.null]) hchunk]

/-- C3: for non-empty primary and secondary frames with the required unique
"Team" (and secondary "Rank") labels, rectangular primary rows and secondary
Team keys free of duplicates, the merge succeeds with exactly one output row
per primary row, and the joined Rank value of row `i` — sitting right after
the primary's own columns — is the matching secondary row's Rank when the
primary's Team key occurs in the secondary and the null marker when it is
absent. -/
theorem merge_left_join (stats rankings : DF)
    (hs : stats.isEmpty = false) (hr : rankings.isEmpty = false)
    (hrect : ∀ r ∈ stats.rows, r.length = stats.columns.length)
    (hsT : stats.columns.count "Team" = 1)
    (hrT : rankings.columns.count "Team" = 1)
    (hrR : rankings.columns.count "Rank" = 1)
    (hnd : (rankings.rows.map (fun r =>
      r.getD (colIdx rankings.columns "Team") Value.null)).Nodup) :
    ∃ df, merge_stats_and_rankings stats rankings = .ok df ∧
      df.rows.length = stats.rows.length ∧
      ∀ i, i < stats.rows.length →
        (df.rows.getD i []).getD stats.columns.length Value.null =
          rankLookup rankings
            ((stats.rows.getD i []).getD (colIdx stats.columns "Team")
              Value.null) := by
  have hall : ((["Team", "Rank"] : List String).all
      (fun n => rankings.columns.count n = 1)) = true := by
    show (decide (rankings.columns.count "Team" = 1) &&
      (decide (rankings.columns.count "Rank" = 1) && true)) = true
    rw [decide_eq_true hrT, decide_eq_true hrR]
    decide
  have hsel : selectCols rankings ["Team", "Rank"] =
      .ok ⟨["Team", "Rank"], rankings.rows.map (fun r =>
        [r.getD (colIdx rankings.columns "Team") Value.null,
         r.getD (colIdx rankings.columns "Rank") Value.null])⟩ := by
    rw [selectCols, if_pos hall]
    rfl
  have hnd2 : ((rankings.rows.map (fun r =>
      [r.getD (colIdx rankings.columns "Team") Value.null,
       r.getD (colIdx rankings.columns "Rank") Value.null])).map
      (fun rr => rr.getD 0 Value.null)).Nodup := by
    rw [List.map_map]
    exact hnd
  obtain ⟨cols, hmerge⟩ := pdMergeLeft_team_rank stats
    (rankings.rows.map (fun r =>
      [r.getD (colIdx rankings.columns "Team") Value.null,
       r.getD (colIdx rankings.columns "Rank") Value.null])) hsT hnd2
  have hnonempty : ((!stats.isEmpty && !rankings.isEmpty) = true) := by
    rw [hs, hr]
    rfl
  have hval : ∀ (tail : List Value) (i : Nat), i < stats.rows.length →
      ((stats.rows.map (fun lr => lr ++
          ((match (rankings.rows.map (fun r =>
              [r.getD (colIdx rankings.columns "Team") Value.null,
               r.getD (colIdx rankings.columns "Rank") Value.null])).find?
                (fun rr => rr.getD 0 Value.null ==
                  lr.getD (colIdx stats.columns "Team") Value.null) with
            | some rr => rr.getD 1 Value.null
            | none => Value.null) :: tail))).getD i []).getD
        stats.columns.length Value.null =
      rankLookup rankings
        ((stats.rows.getD i []).getD (colIdx stats.columns "Team")
          Value.null) := by
    intro tail i hi
    have hmem : stats.rows.getD i [] ∈ stats.rows := by
      rw [List.getD_eq_getElem stats.rows [] hi]
      exact List.getElem_mem hi
    have hlen : (stats.rows.getD i []).length = stats.columns.length :=
      hrect _ hmem
    rw [getD_map_lt stats.rows _ i [] [] hi]
    rw [← hlen]
    rw [getD_append_len]
    rw [rankLookup]
    rw [List.find?_map]
    rw [show rankings.rows.find? ((fun rr => rr.getD 0 Value.null ==
        (stats.rows.getD i []).getD (colIdx stats.columns "Team") Value.null) ∘
        (fun r => [r.getD (colIdx rankings.columns "Team") Value.null,
          r.getD (colIdx rankings.columns "Rank") Value.null])) =
      rankings.rows.find? (fun rr =>
        rr.getD (colIdx rankings.columns "Team") Value.null ==
        (stats.rows.getD i []).getD (colIdx stats.columns "Team") Value.null)
      from rfl]
    cases hf : rankings.rows.find? (fun rr =>
        rr.getD (colIdx rankings.columns "Team") Value.null ==
        (stats.rows.getD i []).getD (colIdx stats.columns "Team") Value.null) with
    | none => rfl
    | some r0 => rfl
  rw [merge_stats_and_rankings, if_pos hnonempty]
  simp only [hsel]
  simp only [hmerge]
  by_cases hc : cols.contains "Conference" = true
  · rw [if_pos hc]
    refine ⟨_, rfl, List.length_map _ _, ?_⟩
    intro i hi
    exact hval [] i hi
  · rw [if_neg hc]
    refine ⟨_, rfl, ?_, ?_⟩
    · show ((stats.rows.map _).map _).length = _
      rw [List.length_map, List.length_map]
    · intro i hi
      show (((stats.rows.map _).map
        (fun r => r ++ [Value.str "Unknown Conference"])).getD i []).getD
          stats.columns.length Value.null = _
      rw [List.map_map]
      rw [show ((fun r => r ++ [Value.str "Unknown Conference"]) ∘
          (fun lr => lr ++
            [match (rankings.rows.map (fun r =>
                [r.getD (colIdx rankings.columns "Team") Value.null,
                 r.getD (colIdx rankings.columns "Rank") Value.null])).find?
                  (fun rr => rr.getD 0 Value.null ==
                    lr.getD (colIdx stats.columns "Team") Value.null) with
              | some rr => rr.getD 1 Value.null
              | none => Value.null])) =
        (fun lr => lr ++
          ((match (rankings.rows.map (fun r =>
              [r.getD (colIdx rankings.columns "Team") Value.null,
               r.getD (colIdx rankings.columns "Rank") Value.null])).find?
                (fun rr => rr.getD 0 Value.null ==
                  lr.getD (colIdx stats.columns "Team") Value.null) with
            | some rr => rr.getD 1 Value.null
            | none => Value.null) :: [Value.str "Unknown Conference"]))
        from funext (fun lr => List.append_assoc lr _ _)]
      exact hval [Value.str "Unknown Conference"] i hi

/-- A concrete primary frame: two teams, one stat column. -/
def statsSample : DF :=
  ⟨["Team", "FG"], [[.str "A", .str "50"], [.str "C", .str "40"]]⟩

/-- A concrete secondary frame: unique Team keys, one shared with the
primary and one absent from it. -/
def rankingsSample : DF :=
  ⟨["Team", "Rank"], [[.str "A", .str "1"], [.str "B", .str "2"]]⟩

/-- Witness for C3: merging the sample frames preserves the primary row
count and fills the joined Rank by key lookup (matched key "A", unmatched
key "C" gets null). -/
theorem merge_left_join_witness :
    ∃ df, merge_stats_and_rankings statsSample rankingsSample = .ok df ∧
      df.rows.length = statsSample.rows.length ∧
      ∀ i, i < statsSample.rows.length →
        (df.rows.getD i []).getD statsSample.columns.length Value.null =
          rankLookup rankingsSample
            ((statsSample.rows.getD i []).getD
              (colIdx statsSample.columns "Team") Value.null) :=
  merge_left_join statsSample rankingsSample (by decide) (by decide)
    (by decide) (by decide) (by decide) (by decide) (by decide)

end FieldGoal

/-- Witness for C5: a two-row frame is returned whole under the empty team
selection and the "All" conference sentinel, and a concrete active filter
keeps row counts non-increasing. -/
theorem update_filters_projection_witness :
    (Stats.filterByTeams ⟨["Team"], [[.str "A"], [.str "B"]]⟩ none =
      .ok ⟨["Team"], [[.str "A"], [.str "B"]]⟩) ∧
    (FieldGoal.filterByConference ⟨["Conference"], [[.str "X"]]⟩ (some "All") =
      .ok ⟨["Conference"], [[.str "X"]]⟩) ∧
    (⟨["Team"], [[.str "A"]]⟩ : DF).rows.length ≤
      (⟨["Team"], [[.str "A"], [.str "B"]]⟩ : DF).rows.length :=
  ⟨(update_filters_projection.1 ⟨["Team"], [[.str "A"], [.str "B"]]⟩).1,
    (update_filters_projection.2.2.1 ⟨["Conference"], [[.str "X"]]⟩).2.1,
    update_filters_projection.2.1 ⟨["Team"], [[.str "A"], [.str "B"]]⟩
      (some ["A"]) ⟨["Team"], [[.str "A"]]⟩ (by decide)⟩

end NCAA
